import Mathlib

/-!
Verification development for `src/server/cover_letter_generator.py`
(class `GroqCoverLetterGenerator`).

Modelling conventions:
* Python strings are lists of characters (`Str`).
* Python exceptions are values of `Except Err` carried by a small
  writer-style monad `M` that also records the externally visible
  calls (filesystem, vector-index searches, chat completion) made
  while a method runs.
* External collaborators (the FAISS index, the embedding model, the
  Groq client, the filesystem) are oracles packed in structures
  (`FAISS`, `Client`, `Env`); their contracts from the documentation
  are stated as explicit hypotheses (`FAISS.WF`) where a theorem
  needs them.
* The text splitter (`RecursiveCharacterTextSplitter(chunk_size=500,
  chunk_overlap=50, separators=["\n\n", "\n", " ", ""])`) is modelled
  faithfully after the library algorithm: recursive splitting on the
  first applicable separator (separators kept, attached to the
  following piece, as with `keep_separator=True`), merging of small
  pieces with the overlap-popping loop, and whitespace stripping of
  each merged chunk.  Recursions are driven by explicit fuel so that
  every definition is executable by `decide`/`rfl`; the fuel bounds
  are always sufficient for the concrete configuration.
-/

/-- Python strings, modelled as lists of characters. -/
abbrev Str := List Char

/-- Python exceptions are carried as messages. -/
abbrev Err := Str

/-- The whitespace characters removed by Python `str.strip()`. -/
def isPySpace (c : Char) : Bool :=
  c == ' ' || c == '\t' || c == '\n' || c == '\r' || c == Char.ofNat 11 || c == Char.ofNat 12

/-- Python `str.strip()`: drop whitespace from both ends. -/
def pyStrip (s : Str) : Str :=
  ((s.dropWhile isPySpace).reverse.dropWhile isPySpace).reverse

/-- Total length of a list of strings. -/
def sumLens (l : List Str) : Nat := (l.map List.length).sum

/-- Python `"\n".join(...)`. -/
def joinNl (l : List Str) : Str := List.intercalate "\n".data l

/-- Python `os.path.join(a, b)` for the paths this program builds. -/
def pathJoin (a b : Str) : Str := a ++ "/".data ++ b

/-! ### The text splitter

Model of `RecursiveCharacterTextSplitter` as configured in
`GroqCoverLetterGenerator.__init__` (lines 27-31 of the source):
`chunk_size=500`, `chunk_overlap=50`, `separators=["\n\n", "\n", " ", ""]`,
with the library defaults `keep_separator=True`, `is_separator_regex=False`
(so separators are literal strings) and `strip_whitespace=True`. -/

/-- Does the (literal) separator occur anywhere in the text
(`re.search` on an escaped literal)? -/
def containsSeq (sep : Str) : Str → Bool
  | [] => sep.isEmpty
  | l@(_ :: rest) => sep.isPrefixOf l || containsSeq sep rest

/-- Split `text` at each leftmost occurrence of the literal separator,
returning the pieces between occurrences (the behaviour of
`re.split` without the capture group).  `fuel` bounds the scan; it is
always instantiated with the length of the text, which suffices. -/
def splitOnSepGo (sep : Str) : Nat → Str → Str → List Str
  | _, acc, [] => [acc.reverse]
  | 0, acc, text => [acc.reverse ++ text]
  | fuel + 1, acc, c :: rest =>
    if sep.isPrefixOf (c :: rest) then
      acc.reverse :: splitOnSepGo sep fuel [] (List.drop (sep.length - 1) rest)
    else
      splitOnSepGo sep fuel (c :: acc) rest

/-- Pieces of `text` between occurrences of the literal `sep`. -/
def splitOnSep (sep text : Str) : List Str := splitOnSepGo sep text.length [] text

/-- `_split_text_with_regex(text, sep, keep_separator=True)`: split on the
separator keeping it attached to the following piece, drop empty pieces.
An empty separator splits into single characters (`list(text)`). -/
def splitWithKeep (sep : Str) (text : Str) : List Str :=
  if sep.isEmpty then
    (text.map (fun c => [c])).filter (fun s => !s.isEmpty)
  else
    match splitOnSep sep text with
    | [] => []
    | p :: ps => (p :: ps.map (fun q => sep ++ q)).filter (fun s => !s.isEmpty)

/-- The separator-selection loop at the top of `_split_text`: pick the
first separator from the list that is empty or occurs in the text
(defaulting to the last one) together with the remaining separators. -/
def chooseSep (text : Str) : List Str → Str × List Str
  | [] => ([], [])
  | s :: rest =>
    if s.isEmpty then (s, [])
    else if rest.isEmpty then (s, [])
    else if containsSeq s text then (s, rest)
    else chooseSep text rest

/-- `_join_docs`: join the accumulated pieces with the separator, strip
whitespace, and drop the chunk when nothing remains. -/
def joinDocs (sep : Str) (docs : List Str) : Option Str :=
  let text := pyStrip (List.intercalate sep docs)
  if text.isEmpty then none else some text

/-- The popping loop inside `_merge_splits`: shrink the running window
from the front while it exceeds the overlap, or while adding the next
piece of length `dLen` would exceed the chunk size. -/
def popLoop (csize overlap sepLen dLen : Nat) : Nat → List Str → Nat × List Str
  | total, [] => (total, [])
  | total, c0 :: rest =>
    if total > overlap ∨ (total + dLen + sepLen > csize ∧ 0 < total) then
      popLoop csize overlap sepLen dLen
        (total - (c0.length + if rest.isEmpty then 0 else sepLen)) rest
    else (total, c0 :: rest)

/-- The main loop of `_merge_splits` over the pieces, carrying the
emitted chunks, the current window and its running total length. -/
def mergeLoop (csize overlap : Nat) (sep : Str) : List Str → List Str → List Str → Nat → List Str
  | [], docs, cur, _total =>
    (match joinDocs sep cur with
     | none => docs
     | some doc => docs ++ [doc])
  | d :: rest, docs, cur, total =>
    let dLen := d.length
    if total + dLen + (if cur.isEmpty then 0 else sep.length) > csize then
      if cur.isEmpty then
        mergeLoop csize overlap sep rest docs [d] (total + dLen)
      else
        let docs' :=
          match joinDocs sep cur with
          | none => docs
          | some doc => docs ++ [doc]
        let pr := popLoop csize overlap sep.length dLen total cur
        let cur' := pr.2 ++ [d]
        mergeLoop csize overlap sep rest docs' cur'
          (pr.1 + dLen + if cur'.length ≤ 1 then 0 else sep.length)
    else
      let cur' := cur ++ [d]
      mergeLoop csize overlap sep rest docs cur'
        (total + dLen + if cur'.length ≤ 1 then 0 else sep.length)

/-- `_merge_splits(splits, sep)`: greedily pack the pieces into chunks of
at most `csize` characters, keeping up to `overlap` characters of
trailing context between consecutive chunks. -/
def mergeSplits (csize overlap : Nat) (sep : Str) (splits : List Str) : List Str :=
  mergeLoop csize overlap sep splits [] [] 0

/-- The piece-classification loop of `_split_text`: pieces shorter than
the chunk size accumulate into `good` and are merged (with separator
`""`, since separators were kept in the pieces); longer pieces are
split recursively via `recFn`, or appended raw when no separators
remain (`noNewSeps`). -/
def processSplits (csize overlap : Nat) (recFn : Str → List Str) (noNewSeps : Bool) :
    List Str → List Str → List Str → List Str
  | [], final, good =>
    if good.isEmpty then final else final ++ mergeSplits csize overlap [] good
  | s :: rest, final, good =>
    if s.length < csize then
      processSplits csize overlap recFn noNewSeps rest final (good ++ [s])
    else
      let final' := if good.isEmpty then final else final ++ mergeSplits csize overlap [] good
      if noNewSeps then
        processSplits csize overlap recFn noNewSeps rest (final' ++ [s]) []
      else
        processSplits csize overlap recFn noNewSeps rest (final' ++ recFn s) []

/-- `_split_text(text, separators)`: choose the first applicable
separator, split, and classify the pieces.  `fuel` bounds the
recursion depth; each recursive call drops at least one separator, so
fuel equal to the number of separators suffices. -/
def splitTextCore (csize overlap : Nat) : Nat → List Str → Str → List Str
  | 0, _, _ => []
  | _fuel + 1, [], _text => []
  | fuel + 1, s :: rest, text =>
    let pr := chooseSep text (s :: rest)
    let splits := splitWithKeep pr.1 text
    processSplits csize overlap (fun t => splitTextCore csize overlap fuel pr.2 t)
      pr.2.isEmpty splits [] []

/-- The separators configured in `__init__`: `["\n\n", "\n", " ", ""]`. -/
def separators500 : List Str := ["\n\n".data, "\n".data, " ".data, "".data]

/-- `self.text_splitter.split_text(text)` for the splitter configured in
`__init__` (chunk size 500, overlap 50).  Both call sites of the
splitter — `load_or_create_vector_store` and `calculate_match_scores` —
go through this function. -/
def split_text (text : Str) : List Str := splitTextCore 500 50 4 separators500 text

example : split_text "hello world".data = ["hello world".data] := by decide
example : pyStrip "  a b ".data = "a b".data := by decide
example : splitOnSep " ".data "a b c".data = ["a".data, "b".data, "c".data] := by decide
example : splitWithKeep " ".data "a b".data = ["a".data, " b".data] := by decide

/-! ### Effects and exceptions

Each method of the class is modelled as a function returning a value
in `M α`: the result (or the Python exception that escaped) together
with the trace of calls to external collaborators made on the way. -/

/-- A `langchain` `Document` (only `page_content` is ever used). -/
structure Doc where
  page_content : Str
deriving DecidableEq

/-- The externally visible calls a method can make: filesystem checks
and writes, index (de)serialisation and construction, vector-index
similarity searches, and the chat-completion request. -/
inductive Call where
  | pathExists (p : Str)
  | loadLocal (p : Str)
  | buildIndex
  | makedirs (p : Str)
  | saveLocal (p : Str)
  | search (q : Str) (k : Nat)
  | searchScore (q : Str) (k : Nat)
  | chatCreate
deriving DecidableEq

/-- A trace of external calls, in execution order. -/
abbrev Trace := List Call

/-- Result of running a method body: its value or escaped exception,
plus the trace of external calls it performed. -/
def M (α : Type) : Type := Except Err α × Trace

/-- Return a pure value, performing no external call. -/
def M.pure {α} (a : α) : M α := (Except.ok a, [])

/-- Sequencing: an escaped exception aborts the rest of the body; the
traces of the two parts concatenate. -/
def M.bind {α β} (x : M α) (f : α → M β) : M β :=
  match x with
  | (Except.error e, t) => (Except.error e, t)
  | (Except.ok a, t) => ((f a).1, t ++ (f a).2)

/-- Perform one external call with the given outcome. -/
def M.call {α} (c : Call) (r : Except Err α) : M α := (r, [c])

/-! ### The FAISS vector store

An index is an abstract collaborator: its chunks, the distance its
embedding model induces between a query and a chunk, and the
(possibly raising) `similarity_search_with_score` method.
`similarity_search` is the same search with the scores dropped, as in
the library. -/

structure FAISS where
  chunks : List Str
  dist : Str → Str → ℚ
  searchScored : Str → Nat → Except Err (List (Doc × ℚ))

/-- `similarity_search`: `similarity_search_with_score` without the scores. -/
def FAISS.search (st : FAISS) (q : Str) (k : Nat) : Except Err (List Doc) :=
  (st.searchScored q k).map (fun l => l.map Prod.fst)

/-- Insert a scored chunk into a list sorted by ascending distance. -/
def insertRanked (p : Str × ℚ) : List (Str × ℚ) → List (Str × ℚ)
  | [] => [p]
  | q :: rest => if p.2 ≤ q.2 then p :: q :: rest else q :: insertRanked p rest

/-- All chunks paired with their distance to the query, sorted by
ascending distance (descending similarity). -/
def rankChunksL (chunks : List Str) (dist : Str → Str → ℚ) (query : Str) : List (Str × ℚ) :=
  (chunks.map (fun c => (c, dist query c))).foldr insertRanked []

/-- The ranking of this store's chunks against a query. -/
def FAISS.rankChunks (st : FAISS) (query : Str) : List (Str × ℚ) :=
  rankChunksL st.chunks st.dist query

/-- The documented contract of the vector-index collaborator: a
successful search returns the `k` nearest chunks by ascending
distance, with their distances. -/
def FAISS.WF (st : FAISS) : Prop :=
  ∀ q k l, st.searchScored q k = Except.ok l →
    l = ((st.rankChunks q).take k).map (fun p => (Doc.mk p.1, p.2))

/-- A store whose search realises the contract exactly and never raises. -/
def mkWFStore (chunks : List Str) (dist : Str → Str → ℚ) : FAISS :=
  { chunks := chunks, dist := dist,
    searchScored := fun q k =>
      Except.ok (((rankChunksL chunks dist q).take k).map (fun p => (Doc.mk p.1, p.2))) }

/-! ### The other collaborators -/

/-- A chat message (`{"role": ..., "content": ...}`). -/
structure Message where
  role : Str
  content : Str
deriving DecidableEq

/-- One completion choice. -/
structure Choice where
  message : Message
deriving DecidableEq

/-- A chat completion response. -/
structure Completion where
  choices : List Choice
deriving DecidableEq

/-- The Groq client: `chat.completions.create(messages, model,
temperature, max_tokens, top_p, stream)`. -/
structure Client where
  create : List Message → Str → ℚ → Nat → ℚ → Bool → Except Err Completion

/-- The filesystem and index-building oracles used by
`load_or_create_vector_store`: `os.path.exists`, `FAISS.load_local`
(which may raise on corrupt data), and `FAISS.from_documents` with
the embedding model. -/
structure Env where
  pathExists : Str → Bool
  loadLocal : Str → Except Err FAISS
  fromDocuments : List Doc → FAISS

/-- The state held by a `GroqCoverLetterGenerator` instance that the
methods read: the Groq client and the vector-store root directory.
The embedding model is part of `Env`, and the configured text
splitter is the global `split_text`. -/
structure GroqCoverLetterGenerator where
  client : Client
  vector_store_path : Str

/-! ### The six fixed extraction queries and their topic labels -/

def q_technical_skills : Str :=
  "What are the candidate\x27s technical skills, programming languages, and tools?".data

def q_soft_skills : Str :=
  "What are the candidate\x27s soft skills, leadership abilities, and interpersonal skills?".data

def q_experience : Str :=
  "What are the candidate\x27s most relevant work experiences, projects, and achievements?".data

def q_education : Str :=
  "What is the candidate\x27s educational background, degrees, and certifications?".data

def q_job_requirements : Str :=
  "What are the key technical requirements and qualifications for this position?".data

def q_job_responsibilities : Str :=
  "What are the main responsibilities and duties of this role?".data

def lbl_technical_skills : Str := "technical_skills".data

def lbl_soft_skills : Str := "soft_skills".data

def lbl_experience : Str := "experience".data

def lbl_education : Str := "education".data

def lbl_job_requirements : Str := "job_requirements".data

def lbl_job_responsibilities : Str := "job_responsibilities".data

/-! ### The methods (lines 59-202 of the source) -/

/-- `get_relevant_context(vector_store, query, k=3)`: run
`similarity_search` and join the returned page contents with
newlines. -/
def get_relevant_context (vector_store : FAISS) (query : Str) (k : Nat := 3) : M Str :=
  M.bind (M.call (Call.search query k) (vector_store.search query k)) fun documents =>
    M.pure (joinNl (documents.map Doc.page_content))

/-- `extract_key_information(resume_store, jd_store)`: run the four
resume queries then the two job-description queries, each with the
default `k=3`, and collect the results keyed by topic label in
insertion order. -/
def extract_key_information (resume_store jd_store : FAISS) : M (List (Str × Str)) :=
  M.bind (get_relevant_context resume_store q_technical_skills) fun v_ts =>
  M.bind (get_relevant_context resume_store q_soft_skills) fun v_ss =>
  M.bind (get_relevant_context resume_store q_experience) fun v_ex =>
  M.bind (get_relevant_context resume_store q_education) fun v_ed =>
  M.bind (get_relevant_context jd_store q_job_requirements) fun v_jr =>
  M.bind (get_relevant_context jd_store q_job_responsibilities) fun v_jd =>
  M.pure [(lbl_technical_skills, v_ts), (lbl_soft_skills, v_ss), (lbl_experience, v_ex),
    (lbl_education, v_ed), (lbl_job_requirements, v_jr), (lbl_job_responsibilities, v_jd)]

/-- Python dict lookup `d[key]` for the extraction bundle (the six keys
are always present, so the default branch is unreachable). -/
def dictGet {β : Type} [Inhabited β] (d : List (Str × β)) (key : Str) : β :=
  match d.find? (fun p => p.1 == key) with
  | some p => p.2
  | none => default

/-- The fixed system message of the generation request. -/
def system_prompt : Str :=
  ("You are a professional cover letter writer. \n                    Create compelling, personalized cover letters that precisely match \n                    candidate qualifications with job requirements.\n                    Directly start writing letter from subject, no need to provide any additional labels like \"Here is a professional cover letter based on the matched information:\" or \"Here is a professional cover letter:\" and other.\n                    ").data

/-- The user message: the f-string embedding the six extracted context
strings and the HR email, followed by the numbered requirements. -/
def user_content (info : List (Str × Str)) (hr_email : Str) : Str :=
  ("\n                    Create a professional cover letter based on the following matched information:\n                    \n                    Technical Skills:\n                    ").data
  ++ dictGet info lbl_technical_skills
  ++ ("\n                    \n                    Soft Skills:\n                    ").data
  ++ dictGet info lbl_soft_skills
  ++ ("\n                    \n                    Relevant Experience:\n                    ").data
  ++ dictGet info lbl_experience
  ++ ("\n                    \n                    Education:\n                    ").data
  ++ dictGet info lbl_education
  ++ ("\n                    \n                    Job Requirements:\n                    ").data
  ++ dictGet info lbl_job_requirements
  ++ ("\n                    \n                    Job Responsibilities:\n                    ").data
  ++ dictGet info lbl_job_responsibilities
  ++ ("\n                    \n                    HR Email: ").data
  ++ hr_email
  ++ ("\n                    \n                    Requirements:\n                    1. Start with a compelling introduction showing understanding of the role\n                    2. Match specific skills and experiences to job requirements\n                    3. Use concrete examples from the experience section\n                    4. Maintain professional tone while showing enthusiasm\n                    5. Format as proper email with subject line\n                    6. Include strong call to action\n                    7. Keep length between 250-300 words\n                    8. End with professional closing\n                    9. Use proper grammar and punctuation\n                    10. Avoid cliches and generic statements\n                    11. Avoid repeating information from resume\n                    12. Avoid negative language or criticism\n                    13. Make sure the email is humanised the email generated should be humanised\n                    ").data

/-- The two-message generation request built inside `generate_cover_letter`. -/
def buildMessages (info : List (Str × Str)) (hr_email : Str) : List Message :=
  [{ role := "system".data, content := system_prompt },
   { role := "user".data, content := user_content info hr_email }]

def groq_model : Str := "llama3-70b-8192".data

def index_error_msg : Str := "list index out of range".data

/-- The body of the `try` block of `generate_cover_letter`: extraction,
prompt construction, the Groq call with the fixed sampling parameters
(temperature 0.7, max_tokens 1000, top_p 1, stream False), and the
`completion.choices[0]` access (which raises on an empty list). -/
def innerGenerate (g : GroqCoverLetterGenerator) (resume_store jd_store : FAISS)
    (hr_email : Str) : M Str :=
  M.bind (extract_key_information resume_store jd_store) fun info =>
  M.bind (M.call Call.chatCreate
    (g.client.create (buildMessages info hr_email) groq_model (7 / 10) 1000 1 false))
    fun completion =>
  match completion.choices with
  | [] => (Except.error index_error_msg, [])
  | c :: _ => M.pure c.message.content

/-- `generate_cover_letter(resume_store, jd_store, hr_email)`: run the
body; any escaped exception is caught (and printed) and turned into
`None`. -/
def generate_cover_letter (g : GroqCoverLetterGenerator) (resume_store jd_store : FAISS)
    (hr_email : Str) : Option Str × Trace :=
  match innerGenerate g resume_store jd_store hr_email with
  | (Except.ok letter, t) => (some letter, t)
  | (Except.error _e, t) => (none, t)

/-! ### Match scoring -/

/-- Python `round(x, 2)` on the idealised rational distances. -/
def roundTo2 (x : ℚ) : ℚ := (round (x * 100) : ℤ) / 100

/-- Python dict assignment `d[key] = v`: overwrite in place if the key
is present, append otherwise. -/
def dictInsert {β : Type} (d : List (Str × β)) (key : Str) (v : β) : List (Str × β) :=
  if d.any (fun p => p.1 == key) then
    d.map (fun p => if p.1 == key then (p.1, v) else p)
  else d ++ [(key, v)]

def q_requirements : Str := "What are the specific requirements and qualifications?".data

/-- The scoring loop of `calculate_match_scores`: for each requirement
chunk, search the resume store with `k=1`; skip the requirement when
no match comes back, otherwise record `(1 - distance) * 100` rounded
to two decimals under the stripped requirement text. -/
def scoreLoop (resume_store : FAISS) : List Str → List (Str × ℚ) → M (List (Str × ℚ))
  | [], scores => M.pure scores
  | req :: rest, scores =>
    M.bind (M.call (Call.searchScore req 1) (resume_store.searchScored req 1)) fun hits =>
    match hits with
    | [] => scoreLoop resume_store rest scores
    | m :: _ =>
      scoreLoop resume_store rest
        (dictInsert scores (pyStrip req) (roundTo2 ((1 - m.2) * 100)))

/-- `calculate_match_scores(resume_store, jd_store)`: retrieve the
requirements context with `k=5`, re-chunk it with the configured
splitter, and score each chunk against the resume store. -/
def calculate_match_scores (resume_store jd_store : FAISS) : M (List (Str × ℚ)) :=
  M.bind (get_relevant_context jd_store q_requirements 5) fun requirements =>
  let req_chunks := split_text requirements
  scoreLoop resume_store req_chunks []

/-! ### Vector-store loading and creation -/

/-- The rebuild path of `load_or_create_vector_store`: chunk the text,
wrap the chunks as documents, build the index over their embeddings,
create the storage root directory (`exist_ok=True`) and persist the
index under the store path. -/
def createNewStore (g : GroqCoverLetterGenerator) (env : Env) (text store_path : Str) :
    M FAISS :=
  let chunks := split_text text
  let documents := chunks.map Doc.mk
  let vector_store := env.fromDocuments documents
  (Except.ok vector_store,
    [Call.buildIndex, Call.makedirs g.vector_store_path, Call.saveLocal store_path])

/-- `load_or_create_vector_store(text, store_name)`: if a persisted
index exists at `vector_store_path/store_name`, try to deserialize
it; a deserialization failure is caught (and printed) and falls
through to the same rebuild as the not-found case. -/
def load_or_create_vector_store (g : GroqCoverLetterGenerator) (env : Env)
    (text store_name : Str) : M FAISS :=
  let store_path := pathJoin g.vector_store_path store_name
  if env.pathExists store_path then
    match env.loadLocal store_path with
    | Except.ok vs => (Except.ok vs, [Call.pathExists store_path, Call.loadLocal store_path])
    | Except.error _e =>
      let rebuilt := createNewStore g env text store_path
      (rebuilt.1, Call.pathExists store_path :: Call.loadLocal store_path :: rebuilt.2)
  else
    let rebuilt := createNewStore g env text store_path
    (rebuilt.1, Call.pathExists store_path :: rebuilt.2)

/-! ### Spec-side comparand for the scorer -/

/-- The text retrieved by a successful search, as `get_relevant_context`
returns it. -/
def retrievedText (l : List (Doc × ℚ)) : Str :=
  joinNl ((l.map Prod.fst).map Doc.page_content)

/-- Modelled from the spec (section 4.6): for each requirement statement,
take the single nearest resume chunk as given by the pure view
`single` of the resume search, convert its distance via
`(1 - distance) * 100` rounded to two decimals, key the score by the
trimmed requirement text, and omit requirements with no match. -/
def matchScoresSpec (single : Str → List (Doc × ℚ)) (reqs : List Str) : List (Str × ℚ) :=
  reqs.foldl (fun acc req =>
    match single req with
    | [] => acc
    | m :: _ => dictInsert acc (pyStrip req) (roundTo2 ((1 - m.2) * 100))) []

/-! ### Call classification for the frame claims -/

/-- Calls that modify the storage directory. -/
def Call.writesFS : Call → Bool
  | Call.makedirs _ => true
  | Call.saveLocal _ => true
  | _ => false

/-- Calls that are vector-index similarity searches. -/
def Call.isSimSearch : Call → Bool
  | Call.search _ _ => true
  | Call.searchScore _ _ => true
  | _ => false

/-! ### Concrete instances used to exercise the theorems -/

/-- A store whose searches always raise. -/
def errStore : FAISS :=
  { chunks := [], dist := fun _ _ => 0, searchScored := fun _ _ => Except.error "boom".data }

/-- A store whose searches succeed with no hits. -/
def emptyHitStore : FAISS :=
  { chunks := [], dist := fun _ _ => 0, searchScored := fun _ _ => Except.ok [] }

/-- A resume store whose metric is unbounded: every search returns one
hit at raw distance 2. -/
def rsOutOfRange : FAISS :=
  { chunks := ["x".data], dist := fun _ _ => 2,
    searchScored := fun _ _ => Except.ok [(Doc.mk "x".data, 2)] }

/-- A resume store with a bounded metric: every search returns one hit
at distance 1/2. -/
def rsHalf : FAISS :=
  { chunks := ["x".data], dist := fun _ _ => 1 / 2,
    searchScored := fun _ _ => Except.ok [(Doc.mk "x".data, 1 / 2)] }

/-- A job-description store holding a single requirement statement. -/
def jdReq : FAISS :=
  { chunks := ["Need Go experience".data], dist := fun _ _ => 0,
    searchScored := fun _ _ => Except.ok [(Doc.mk "Need Go experience".data, 0)] }

/-- A well-formed store over two chunks ranked by length. -/
def wfStoreW : FAISS := mkWFStore ["alpha".data, "be".data] (fun _ c => (c.length : ℚ))

/-- A client that always returns a one-choice completion. -/
def clientOk : Client :=
  { create := fun _ _ _ _ _ _ =>
      Except.ok { choices := [{ message := { role := "assistant".data, content := "letter".data } }] } }

/-- A generator instance with the default storage root. -/
def genW : GroqCoverLetterGenerator :=
  { client := clientOk, vector_store_path := "vector_indices".data }

/-- Builds a trivial well-formed store from documents. -/
def buildStoreW (docs : List Doc) : FAISS :=
  mkWFStore (docs.map Doc.page_content) (fun _ _ => 0)

/-- A filesystem where the store path exists but deserialization fails. -/
def envLoadFail : Env :=
  { pathExists := fun _ => true, loadLocal := fun _ => Except.error "corrupt".data,
    fromDocuments := buildStoreW }

/-- A filesystem with no persisted store. -/
def envFresh : Env :=
  { pathExists := fun _ => false, loadLocal := fun _ => Except.error "missing".data,
    fromDocuments := buildStoreW }

/-- A filesystem where the persisted store loads fine. -/
def envLoadOk : Env :=
  { pathExists := fun _ => true, loadLocal := fun _ => Except.ok emptyHitStore,
    fromDocuments := buildStoreW }

/-- Decidable equality for `Except`, used to evaluate concrete runs. -/
instance {ε α : Type} [DecidableEq ε] [DecidableEq α] : DecidableEq (Except ε α) :=
  fun x y =>
    match x, y with
    | Except.ok a, Except.ok b =>
      if h : a = b then Decidable.isTrue (by rw [h])
      else Decidable.isFalse (by intro hc; cases hc; exact h rfl)
    | Except.error e, Except.error f =>
      if h : e = f then Decidable.isTrue (by rw [h])
      else Decidable.isFalse (by intro hc; cases hc; exact h rfl)
    | Except.ok _, Except.error _ => Decidable.isFalse (by intro hc; cases hc)
    | Except.error _, Except.ok _ => Decidable.isFalse (by intro hc; cases hc)

/-! ### Helper lemmas about the monad and the retriever -/

theorem M_bind_fst {α β : Type} (x : M α) (f : α → M β) :
    (M.bind x f).1 = match x.1 with
      | Except.error e => Except.error e
      | Except.ok a => (f a).1 := by
  obtain ⟨r, t⟩ := x
  cases r <;> rfl

theorem M_mem_bind_trace {α β : Type} {x : M α} {f : α → M β} {c : Call}
    (h : c ∈ (M.bind x f).2) : c ∈ x.2 ∨ ∃ a, x.1 = Except.ok a ∧ c ∈ (f a).2 := by
  obtain ⟨r, t⟩ := x
  cases r with
  | error e => exact Or.inl h
  | ok a =>
    rcases List.mem_append.mp h with h' | h'
    · exact Or.inl h'
    · exact Or.inr ⟨a, rfl, h'⟩

theorem grc_ok {st : FAISS} {q : Str} {k : Nat} {l : List (Doc × ℚ)}
    (h : st.searchScored q k = Except.ok l) :
    get_relevant_context st q k = (Except.ok (retrievedText l), [Call.search q k]) := by
  simp [get_relevant_context, M.call, M.bind, FAISS.search, h, Except.map, M.pure, retrievedText]

theorem grc_error {st : FAISS} {q : Str} {k : Nat} {e : Err}
    (h : st.searchScored q k = Except.error e) :
    get_relevant_context st q k = (Except.error e, [Call.search q k]) := by
  simp [get_relevant_context, M.call, M.bind, FAISS.search, h, Except.map]

theorem grc_trace (st : FAISS) (q : Str) (k : Nat) :
    (get_relevant_context st q k).2 = [Call.search q k] := by
  cases h : st.searchScored q k with
  | error e => rw [grc_error h]
  | ok l => rw [grc_ok h]

/-! ### C1 -/

/-- C1: any exception escaping the body of `generate_cover_letter` —
extraction, prompt construction, or the generation call — is caught,
and the method returns an absent result (`None`) instead of
propagating the exception.  (`innerGenerate` is the whole `try`
block; logging has no observable effect beyond the trace.) -/
theorem generate_cover_letter_catches_exceptions (g : GroqCoverLetterGenerator)
    (resume_store jd_store : FAISS) (hr_email : Str) (e : Err) (t : Trace)
    (h : innerGenerate g resume_store jd_store hr_email = (Except.error e, t)) :
    generate_cover_letter g resume_store jd_store hr_email = (none, t) := by
  simp [generate_cover_letter, h]

/-- Witness for C1: with a store whose very first retrieval raises, the
body fails and the method returns `None`. -/
theorem generate_cover_letter_catches_exceptions_witness :
    innerGenerate genW errStore errStore [] =
      (Except.error "boom".data, [Call.search q_technical_skills 3]) ∧
    generate_cover_letter genW errStore errStore [] =
      (none, [Call.search q_technical_skills 3]) :=
  ⟨rfl, generate_cover_letter_catches_exceptions genW errStore errStore [] _ _ rfl⟩

/-! ### C2 -/

/-- C2: when a persisted index exists at the store path but
deserializing it fails with any exception, `load_or_create_vector_store`
catches the exception and falls through to rebuilding the index from
the text — producing exactly the same result value as the not-found
case, and raising nothing to the caller. -/
theorem load_fallback_on_deserialization_failure (g : GroqCoverLetterGenerator) (env : Env)
    (text store_name : Str) (e : Err)
    (hex : env.pathExists (pathJoin g.vector_store_path store_name) = true)
    (hload : env.loadLocal (pathJoin g.vector_store_path store_name) = Except.error e) :
    load_or_create_vector_store g env text store_name =
      (Except.ok (env.fromDocuments ((split_text text).map Doc.mk)),
        [Call.pathExists (pathJoin g.vector_store_path store_name),
         Call.loadLocal (pathJoin g.vector_store_path store_name), Call.buildIndex,
         Call.makedirs g.vector_store_path,
         Call.saveLocal (pathJoin g.vector_store_path store_name)]) ∧
    (load_or_create_vector_store g env text store_name).1 =
      (load_or_create_vector_store g { env with pathExists := fun _ => false }
        text store_name).1 := by
  constructor
  · simp [load_or_create_vector_store, hex, hload, createNewStore]
  · simp [load_or_create_vector_store, hex, hload, createNewStore]

/-- Witness for C2: a corrupt persisted index triggers a rebuild. -/
theorem load_fallback_on_deserialization_failure_witness :
    load_or_create_vector_store genW envLoadFail "abc".data "resume_index".data =
      (Except.ok (envLoadFail.fromDocuments ((split_text "abc".data).map Doc.mk)),
        [Call.pathExists (pathJoin genW.vector_store_path "resume_index".data),
         Call.loadLocal (pathJoin genW.vector_store_path "resume_index".data), Call.buildIndex,
         Call.makedirs genW.vector_store_path,
         Call.saveLocal (pathJoin genW.vector_store_path "resume_index".data)]) ∧
    (load_or_create_vector_store genW envLoadFail "abc".data "resume_index".data).1 =
      (load_or_create_vector_store genW { envLoadFail with pathExists := fun _ => false }
        "abc".data "resume_index".data).1 :=
  load_fallback_on_deserialization_failure genW envLoadFail "abc".data "resume_index".data
    "corrupt".data rfl rfl

/-! ### C9: chunk-length bound for the configured splitter -/

theorem sumLens_cons (a : Str) (l : List Str) : sumLens (a :: l) = a.length + sumLens l := by
  simp [sumLens]

theorem sumLens_append_single (l : List Str) (d : Str) :
    sumLens (l ++ [d]) = sumLens l + d.length := by
  simp [sumLens]

theorem pyStrip_length_le (s : Str) : (pyStrip s).length ≤ s.length := by
  unfold pyStrip
  calc (((s.dropWhile isPySpace).reverse.dropWhile isPySpace).reverse).length
      = ((s.dropWhile isPySpace).reverse.dropWhile isPySpace).length := by
        rw [List.length_reverse]
    _ ≤ (s.dropWhile isPySpace).reverse.length := (List.dropWhile_sublist _).length_le
    _ = (s.dropWhile isPySpace).length := by rw [List.length_reverse]
    _ ≤ s.length := (List.dropWhile_sublist _).length_le

theorem flatten_intersperse_nil {α : Type} (docs : List (List α)) :
    (List.intersperse [] docs).flatten = docs.flatten := by
  induction docs with
  | nil => rfl
  | cons d rest ih =>
    cases rest with
    | nil => rfl
    | cons e t =>
      simp only [List.intersperse_cons_cons, List.flatten_cons] at *
      rw [ih]
      simp

theorem intercalate_nil_length (docs : List Str) :
    (List.intercalate ([] : Str) docs).length = sumLens docs := by
  rw [List.intercalate, flatten_intersperse_nil, List.length_flatten, sumLens]

/-- A chunk emitted by `joinDocs` with the empty separator is no longer
than the total length of the window. -/
theorem joinDocs_nil_length {cur : List Str} {d : Str}
    (h : joinDocs [] cur = some d) : d.length ≤ sumLens cur := by
  simp only [joinDocs] at h
  split at h
  · cases h
  · cases h
    calc (pyStrip (List.intercalate [] cur)).length
        ≤ (List.intercalate ([] : Str) cur).length := pyStrip_length_le _
      _ = sumLens cur := intercalate_nil_length cur

/-- The popping loop with a zero-length separator keeps the running
total equal to the window length and stops with the total within the
overlap and small enough to accept the next piece (or empty). -/
theorem popLoop_spec (csize overlap dLen : Nat) :
    ∀ (cur : List Str) (total : Nat), total = sumLens cur →
      (popLoop csize overlap 0 dLen total cur).1 =
        sumLens (popLoop csize overlap 0 dLen total cur).2 ∧
      (popLoop csize overlap 0 dLen total cur).1 ≤ overlap ∧
      ((popLoop csize overlap 0 dLen total cur).1 + dLen ≤ csize ∨
        (popLoop csize overlap 0 dLen total cur).1 = 0) := by
  intro cur
  induction cur with
  | nil =>
    intro total htot
    simp [sumLens] at htot
    simp [popLoop, htot, sumLens]
  | cons c0 rest ih =>
    intro total htot
    rw [sumLens_cons] at htot
    by_cases hcond : total > overlap ∨ (total + dLen + 0 > csize ∧ 0 < total)
    · simp only [popLoop]
      rw [if_pos hcond]
      have hz : (if rest.isEmpty then 0 else 0) = 0 := ite_self 0
      have hrest : total - (c0.length + if rest.isEmpty then 0 else 0) = sumLens rest := by
        rw [hz]
        omega
      rw [hrest]
      exact ih (sumLens rest) rfl
    · simp only [popLoop]
      rw [if_neg hcond]
      refine ⟨?_, ?_, ?_⟩
      · rw [sumLens_cons]
        omega
      · omega
      · omega

/-- Every chunk emitted by the merge loop with the empty separator is
at most `csize` long, provided every piece is shorter than `csize`
and the invariants hold on entry. -/
theorem mergeLoop_bound (csize overlap : Nat) :
    ∀ (splits docs cur : List Str) (total : Nat),
      (∀ s ∈ splits, s.length < csize) →
      total = sumLens cur →
      total ≤ csize →
      (∀ d ∈ docs, d.length ≤ csize) →
      ∀ d ∈ mergeLoop csize overlap [] splits docs cur total, d.length ≤ csize := by
  intro splits
  induction splits with
  | nil =>
    intro docs cur total _ htot hle hdocs d hd
    simp only [mergeLoop] at hd
    cases hj : joinDocs [] cur with
    | none =>
      rw [hj] at hd
      exact hdocs d hd
    | some doc =>
      rw [hj] at hd
      rcases List.mem_append.mp hd with h' | h'
      · exact hdocs d h'
      · have hdd : d = doc := by simpa using h'
        subst hdd
        calc d.length ≤ sumLens cur := joinDocs_nil_length hj
          _ = total := htot.symm
          _ ≤ csize := hle
  | cons s rest ih =>
    intro docs cur total hsplits htot hle hdocs d hd
    have hs : s.length < csize := hsplits s (List.mem_cons_self s rest)
    have hrest : ∀ s' ∈ rest, s'.length < csize :=
      fun s' h' => hsplits s' (List.mem_cons_of_mem s h')
    have hdocs' : ∀ d' ∈ (match joinDocs [] cur with
        | none => docs
        | some doc => docs ++ [doc]), d'.length ≤ csize := by
      cases hj : joinDocs [] cur with
      | none => simpa using hdocs
      | some doc =>
        intro d' hd'
        rcases List.mem_append.mp hd' with h' | h'
        · exact hdocs d' h'
        · have hdd : d' = doc := by simpa using h'
          subst hdd
          calc d'.length ≤ sumLens cur := joinDocs_nil_length hj
            _ = total := htot.symm
            _ ≤ csize := hle
    simp only [mergeLoop, List.length_nil, ite_self, Nat.add_zero] at hd
    by_cases hcond : total + s.length > csize
    · rw [if_pos hcond] at hd
      by_cases hemp : cur.isEmpty
      · exfalso
        have hcur : cur = [] := List.isEmpty_iff.mp hemp
        subst hcur
        simp [sumLens] at htot
        omega
      · rw [if_neg hemp] at hd
        have hpr := popLoop_spec csize overlap s.length cur total htot
        refine ih _ _ _ hrest ?_ ?_ hdocs' d hd
        · rw [sumLens_append_single]
          omega
        · rcases hpr.2.2 with h' | h' <;> omega
    · rw [if_neg hcond] at hd
      refine ih _ _ _ hrest ?_ ?_ hdocs d hd
      · rw [sumLens_append_single]
        omega
      · omega

/-- Every chunk emitted by the piece-classification loop is at most
`csize` long, provided recursive splitting is bounded and, when no
separators remain, the pieces themselves are bounded. -/
theorem processSplits_bound (csize overlap : Nat) (recFn : Str → List Str) (noNewSeps : Bool)
    (hrec : ∀ s, ∀ c ∈ recFn s, c.length ≤ csize) :
    ∀ (splits final good : List Str),
      (noNewSeps = true → ∀ s ∈ splits, s.length ≤ csize) →
      (∀ s ∈ good, s.length < csize) →
      (∀ c ∈ final, c.length ≤ csize) →
      ∀ c ∈ processSplits csize overlap recFn noNewSeps splits final good,
        c.length ≤ csize := by
  intro splits
  induction splits with
  | nil =>
    intro final good _ hgood hfinal c hc
    simp only [processSplits] at hc
    by_cases hge : good.isEmpty = true
    · rw [if_pos hge] at hc
      exact hfinal c hc
    · rw [if_neg hge] at hc
      rcases List.mem_append.mp hc with h' | h'
      · exact hfinal c h'
      · exact mergeLoop_bound csize overlap good [] [] 0 hgood rfl (Nat.zero_le _)
          (by simp) c h'
  | cons s rest ih =>
    intro final good hone hgood hfinal c hc
    simp only [processSplits] at hc
    by_cases hlt : s.length < csize
    · rw [if_pos hlt] at hc
      refine ih _ _ (fun ht s' hs' => hone ht s' (List.mem_cons_of_mem s hs')) ?_ hfinal c hc
      intro s' hs'
      rcases List.mem_append.mp hs' with h' | h'
      · exact hgood s' h'
      · have hss : s' = s := by simpa using h'
        subst hss
        exact hlt
    · rw [if_neg hlt] at hc
      have hfinal' : ∀ c' ∈ (if good.isEmpty then final
          else final ++ mergeSplits csize overlap [] good), c'.length ≤ csize := by
        by_cases hge : good.isEmpty = true
        · rw [if_pos hge]
          exact hfinal
        · rw [if_neg hge]
          intro c' hc'
          rcases List.mem_append.mp hc' with h' | h'
          · exact hfinal c' h'
          · exact mergeLoop_bound csize overlap good [] [] 0 hgood rfl (Nat.zero_le _)
              (by simp) c' h'
      by_cases hn : noNewSeps = true
      · rw [if_pos hn] at hc
        refine ih _ _ (fun ht s' hs' => hone ht s' (List.mem_cons_of_mem s hs'))
          (by simp) ?_ c hc
        intro c' hc'
        rcases List.mem_append.mp hc' with h' | h'
        · exact hfinal' c' h'
        · have hcs : c' = s := by simpa using h'
          rw [hcs]
          exact hone hn s (List.mem_cons_self s rest)
      · rw [if_neg hn] at hc
        refine ih _ _ (fun ht s' hs' => hone ht s' (List.mem_cons_of_mem s hs'))
          (by simp) ?_ c hc
        intro c' hc'
        rcases List.mem_append.mp hc' with h' | h'
        · exact hfinal' c' h'
        · exact hrec s c' h'

/-- The separator-selection loop, run on a separator list ending in the
empty separator, either selects the empty separator with no remaining
separators, or leaves a nonempty remainder that again ends in the
empty separator. -/
theorem chooseSep_cases :
    ∀ (seps : List Str) (text : Str), seps ≠ [] → seps.getLast? = some [] →
      ((chooseSep text seps).2 = [] → (chooseSep text seps).1 = []) ∧
      ((chooseSep text seps).2 ≠ [] → (chooseSep text seps).2.getLast? = some []) := by
  intro seps
  induction seps with
  | nil =>
    intro text h
    exact absurd rfl h
  | cons s rest ih =>
    intro text _ hlast
    simp only [chooseSep]
    by_cases h1 : s.isEmpty = true
    · rw [if_pos h1]
      exact ⟨fun _ => List.isEmpty_iff.mp h1, fun h => absurd rfl h⟩
    · rw [if_neg h1]
      by_cases h2 : rest.isEmpty = true
      · exfalso
        have hr : rest = [] := List.isEmpty_iff.mp h2
        subst hr
        simp only [List.getLast?_singleton, Option.some.injEq] at hlast
        exact h1 (by simp [hlast])
      · rw [if_neg h2]
        have hr : rest ≠ [] := fun hh => h2 (by simp [hh])
        have hlast' : rest.getLast? = some [] := by
          cases rest with
          | nil => exact absurd rfl hr
          | cons r rs =>
            rw [List.getLast?_cons_cons] at hlast
            exact hlast
        by_cases h3 : containsSeq s text = true
        · rw [if_pos h3]
          exact ⟨fun hh => absurd hh hr, fun _ => hlast'⟩
        · rw [if_neg h3]
          exact ih text hr hlast'

/-- With the empty separator every produced piece is a single character. -/
theorem splitWithKeep_nil_sep (text : Str) :
    ∀ s ∈ splitWithKeep [] text, s.length = 1 := by
  intro s hs
  have he : splitWithKeep [] text = (text.map (fun c => [c])).filter (fun q => !q.isEmpty) :=
    rfl
  rw [he] at hs
  obtain ⟨c, _, rfl⟩ := List.mem_map.mp (List.mem_filter.mp hs).1
  rfl

/-- Splitting with an empty separator list yields no chunks. -/
theorem splitTextCore_nil_seps (csize overlap : Nat) :
    ∀ fuel text, splitTextCore csize overlap fuel [] text = [] := by
  intro fuel text
  cases fuel <;> rfl

/-- Every chunk of `_split_text` is at most `csize` long, whenever the
separator list ends with the empty separator and `csize ≥ 1`. -/
theorem splitTextCore_bound (csize overlap : Nat) (hcs : 1 ≤ csize) :
    ∀ (fuel : Nat) (seps : List Str), seps.getLast? = some [] →
      ∀ (text c : Str), c ∈ splitTextCore csize overlap fuel seps text → c.length ≤ csize := by
  intro fuel
  induction fuel with
  | zero =>
    intro seps _ text c hc
    simp only [splitTextCore] at hc
    exact absurd hc (List.not_mem_nil c)
  | succ fuel ih =>
    intro seps hlast text c hc
    cases seps with
    | nil =>
      simp only [splitTextCore] at hc
      exact absurd hc (List.not_mem_nil c)
    | cons s rest =>
      simp only [splitTextCore] at hc
      have hchoose := chooseSep_cases (s :: rest) text (by simp) hlast
      refine processSplits_bound csize overlap _ _ ?_
        (splitWithKeep (chooseSep text (s :: rest)).1 text) [] [] ?_ (by simp) (by simp) c hc
      · intro sp c' hc'
        by_cases hp : (chooseSep text (s :: rest)).2 = []
        · rw [hp, splitTextCore_nil_seps] at hc'
          exact absurd hc' (List.not_mem_nil c')
        · exact ih _ (hchoose.2 hp) sp c' hc'
      · intro hz sp hsp
        have hp : (chooseSep text (s :: rest)).2 = [] := List.isEmpty_iff.mp hz
        rw [hchoose.1 hp] at hsp
        have h1 := splitWithKeep_nil_sep text sp hsp
        omega

/-- C9: every chunk produced by the configured splitter (chunk size 500,
overlap 50, separators ending in the empty string) has length at most
500; both chunking call sites — document chunking in
`load_or_create_vector_store` and requirement re-chunking in
`calculate_match_scores` — go through this same `split_text`. -/
theorem chunk_length_bound (text c : Str) (h : c ∈ split_text text) : c.length ≤ 500 :=
  splitTextCore_bound 500 50 (by norm_num) 4 separators500 (by rfl) text c h

/-- Witness for C9: a concrete text and the chunk produced from it. -/
theorem chunk_length_bound_witness :
    "hello world".data ∈ split_text "hello world".data ∧
    ("hello world".data).length ≤ 500 :=
  ⟨by decide, chunk_length_bound "hello world".data "hello world".data (by decide)⟩

/-! ### C7 -/

/-- C7: `load_or_create_vector_store` returns the deserialized persisted
index when one exists and loads successfully; otherwise it chunks the
text, builds an index over the embedded chunks, creates the storage
directory, persists the new index under `storage_root/name`, and
returns it. -/
theorem load_or_create_cache_semantics (g : GroqCoverLetterGenerator) (env : Env)
    (text store_name : Str) (vs : FAISS) :
    (env.pathExists (pathJoin g.vector_store_path store_name) = true →
      env.loadLocal (pathJoin g.vector_store_path store_name) = Except.ok vs →
      load_or_create_vector_store g env text store_name =
        (Except.ok vs,
          [Call.pathExists (pathJoin g.vector_store_path store_name),
           Call.loadLocal (pathJoin g.vector_store_path store_name)])) ∧
    (env.pathExists (pathJoin g.vector_store_path store_name) = false →
      load_or_create_vector_store g env text store_name =
        (Except.ok (env.fromDocuments ((split_text text).map Doc.mk)),
          [Call.pathExists (pathJoin g.vector_store_path store_name), Call.buildIndex,
           Call.makedirs g.vector_store_path,
           Call.saveLocal (pathJoin g.vector_store_path store_name)])) := by
  constructor
  · intro hex hload
    simp [load_or_create_vector_store, hex, hload]
  · intro hex
    simp [load_or_create_vector_store, hex, createNewStore]

/-- Witness for C7: both the load path and the build path, run on
concrete filesystems. -/
theorem load_or_create_cache_semantics_witness :
    load_or_create_vector_store genW envLoadOk "abc".data "jd_index".data =
      (Except.ok emptyHitStore,
        [Call.pathExists (pathJoin genW.vector_store_path "jd_index".data),
         Call.loadLocal (pathJoin genW.vector_store_path "jd_index".data)]) ∧
    load_or_create_vector_store genW envFresh "abc".data "jd_index".data =
      (Except.ok (envFresh.fromDocuments ((split_text "abc".data).map Doc.mk)),
        [Call.pathExists (pathJoin genW.vector_store_path "jd_index".data), Call.buildIndex,
         Call.makedirs genW.vector_store_path,
         Call.saveLocal (pathJoin genW.vector_store_path "jd_index".data)]) :=
  ⟨(load_or_create_cache_semantics genW envLoadOk "abc".data "jd_index".data
      emptyHitStore).1 rfl rfl,
   (load_or_create_cache_semantics genW envFresh "abc".data "jd_index".data
      emptyHitStore).2 rfl⟩

/-! ### C3 -/

/-- C3: when the six retrievals succeed, `extract_key_information`
returns the bundle with exactly the six fixed topic labels in order —
the first four retrieved from the resume store, the last two from the
job-description store, each with `k = 3` — and every label is
populated with the joined retrieval context (possibly the empty
string). -/
theorem extract_key_information_bundle (resume_store jd_store : FAISS)
    (l1 l2 l3 l4 l5 l6 : List (Doc × ℚ))
    (h1 : resume_store.searchScored q_technical_skills 3 = Except.ok l1)
    (h2 : resume_store.searchScored q_soft_skills 3 = Except.ok l2)
    (h3 : resume_store.searchScored q_experience 3 = Except.ok l3)
    (h4 : resume_store.searchScored q_education 3 = Except.ok l4)
    (h5 : jd_store.searchScored q_job_requirements 3 = Except.ok l5)
    (h6 : jd_store.searchScored q_job_responsibilities 3 = Except.ok l6) :
    extract_key_information resume_store jd_store =
      (Except.ok
        [(lbl_technical_skills, retrievedText l1), (lbl_soft_skills, retrievedText l2),
         (lbl_experience, retrievedText l3), (lbl_education, retrievedText l4),
         (lbl_job_requirements, retrievedText l5), (lbl_job_responsibilities, retrievedText l6)],
       [Call.search q_technical_skills 3, Call.search q_soft_skills 3,
        Call.search q_experience 3, Call.search q_education 3,
        Call.search q_job_requirements 3, Call.search q_job_responsibilities 3]) := by
  simp [extract_key_information, grc_ok h1, grc_ok h2, grc_ok h3, grc_ok h4, grc_ok h5,
    grc_ok h6, M.bind, M.pure]

/-- Witness for C3: with stores that return no hits, all six labels are
still present, each with empty context. -/
theorem extract_key_information_bundle_witness :
    extract_key_information emptyHitStore emptyHitStore =
      (Except.ok
        [(lbl_technical_skills, retrievedText []), (lbl_soft_skills, retrievedText []),
         (lbl_experience, retrievedText []), (lbl_education, retrievedText []),
         (lbl_job_requirements, retrievedText []), (lbl_job_responsibilities, retrievedText [])],
       [Call.search q_technical_skills 3, Call.search q_soft_skills 3,
        Call.search q_experience 3, Call.search q_education 3,
        Call.search q_job_requirements 3, Call.search q_job_responsibilities 3]) :=
  extract_key_information_bundle emptyHitStore emptyHitStore [] [] [] [] [] []
    rfl rfl rfl rfl rfl rfl

/-! ### C4 -/

/-- C4: for a store satisfying the index collaborator's contract
(`FAISS.WF`), a successful `get_relevant_context` returns the `k`
nearest chunks' raw text joined with newlines in similarity-descending
(distance-ascending) order; on a store with no chunks it returns the
empty string; and `k` defaults to 3. -/
theorem get_relevant_context_top_k (st : FAISS) (query : Str) (k : Nat)
    (l : List (Doc × ℚ)) (hwf : st.WF) (h : st.searchScored query k = Except.ok l) :
    get_relevant_context st query k =
      (Except.ok (joinNl (((st.rankChunks query).take k).map Prod.fst)),
        [Call.search query k]) ∧
    (st.chunks = [] →
      get_relevant_context st query k = (Except.ok [], [Call.search query k])) ∧
    get_relevant_context st query = get_relevant_context st query 3 := by
  have hl := hwf query k l h
  refine ⟨?_, ?_, rfl⟩
  · rw [grc_ok h, hl]
    simp [retrievedText, List.map_map, List.map_take, Function.comp_def]
  · intro hc
    rw [grc_ok h, hl]
    simp [retrievedText, FAISS.rankChunks, rankChunksL, hc, joinNl, List.intercalate]

/-- Stores built by `mkWFStore` satisfy the index contract. -/
theorem mkWFStore_wf (chunks : List Str) (dist : Str → Str → ℚ) : (mkWFStore chunks dist).WF := by
  intro q k l h
  cases h
  rfl

/-- Witness for C4: the retriever run on a concrete contract-abiding
store. -/
theorem get_relevant_context_top_k_witness :
    get_relevant_context wfStoreW "q".data 1 =
      (Except.ok (joinNl (((wfStoreW.rankChunks "q".data).take 1).map Prod.fst)),
        [Call.search "q".data 1]) ∧
    (wfStoreW.chunks = [] →
      get_relevant_context wfStoreW "q".data 1 = (Except.ok [], [Call.search "q".data 1])) ∧
    get_relevant_context wfStoreW "q".data = get_relevant_context wfStoreW "q".data 3 :=
  get_relevant_context_top_k wfStoreW "q".data 1
    (((wfStoreW.rankChunks "q".data).take 1).map (fun p => (Doc.mk p.1, p.2)))
    (mkWFStore_wf _ _) (by rfl)

/-! ### C8 -/

/-- Error propagation through the scoring loop: if every requirement
before `req` searches successfully and the search for `req` raises,
the loop returns that very exception. -/
theorem scoreLoop_error (rs : FAISS) :
    ∀ (reqs1 : List Str) (req : Str) (reqs2 : List Str) (acc : List (Str × ℚ)) (e : Err),
      (∀ r ∈ reqs1, ∃ hl, rs.searchScored r 1 = Except.ok hl) →
      rs.searchScored req 1 = Except.error e →
      (scoreLoop rs (reqs1 ++ req :: reqs2) acc).1 = Except.error e := by
  intro reqs1
  induction reqs1 with
  | nil =>
    intro req reqs2 acc e _ herr
    simp [scoreLoop, M.call, M.bind, herr]
  | cons r rest ih =>
    intro req reqs2 acc e hok herr
    obtain ⟨hl, hr⟩ := hok r (List.mem_cons_self r rest)
    have hok' : ∀ r' ∈ rest, ∃ hl', rs.searchScored r' 1 = Except.ok hl' :=
      fun r' hmem => hok r' (List.mem_cons_of_mem r hmem)
    cases hl with
    | nil =>
      simp only [List.cons_append, scoreLoop, M.call, M.bind, hr]
      exact ih req reqs2 acc e hok' herr
    | cons m ms =>
      simp only [List.cons_append, scoreLoop, M.call, M.bind, hr]
      exact ih req reqs2 _ e hok' herr

/-- C8: neither `extract_key_information` nor `calculate_match_scores`
catches exceptions: a raise in any underlying retrieval (with all
earlier retrievals succeeding) escapes unchanged to the direct
caller, aborting the whole extraction or scoring — in contrast to
`generate_cover_letter`, which converts the same failure into an
absent result. -/
theorem extractor_and_scorer_propagate_errors :
    (∀ (rs js : FAISS) (e : Err),
      rs.searchScored q_technical_skills 3 = Except.error e →
      (extract_key_information rs js).1 = Except.error e) ∧
    (∀ (rs js : FAISS) (e : Err) (l1 : List (Doc × ℚ)),
      rs.searchScored q_technical_skills 3 = Except.ok l1 →
      rs.searchScored q_soft_skills 3 = Except.error e →
      (extract_key_information rs js).1 = Except.error e) ∧
    (∀ (rs js : FAISS) (e : Err) (l1 l2 : List (Doc × ℚ)),
      rs.searchScored q_technical_skills 3 = Except.ok l1 →
      rs.searchScored q_soft_skills 3 = Except.ok l2 →
      rs.searchScored q_experience 3 = Except.error e →
      (extract_key_information rs js).1 = Except.error e) ∧
    (∀ (rs js : FAISS) (e : Err) (l1 l2 l3 : List (Doc × ℚ)),
      rs.searchScored q_technical_skills 3 = Except.ok l1 →
      rs.searchScored q_soft_skills 3 = Except.ok l2 →
      rs.searchScored q_experience 3 = Except.ok l3 →
      rs.searchScored q_education 3 = Except.error e →
      (extract_key_information rs js).1 = Except.error e) ∧
    (∀ (rs js : FAISS) (e : Err) (l1 l2 l3 l4 : List (Doc × ℚ)),
      rs.searchScored q_technical_skills 3 = Except.ok l1 →
      rs.searchScored q_soft_skills 3 = Except.ok l2 →
      rs.searchScored q_experience 3 = Except.ok l3 →
      rs.searchScored q_education 3 = Except.ok l4 →
      js.searchScored q_job_requirements 3 = Except.error e →
      (extract_key_information rs js).1 = Except.error e) ∧
    (∀ (rs js : FAISS) (e : Err) (l1 l2 l3 l4 l5 : List (Doc × ℚ)),
      rs.searchScored q_technical_skills 3 = Except.ok l1 →
      rs.searchScored q_soft_skills 3 = Except.ok l2 →
      rs.searchScored q_experience 3 = Except.ok l3 →
      rs.searchScored q_education 3 = Except.ok l4 →
      js.searchScored q_job_requirements 3 = Except.ok l5 →
      js.searchScored q_job_responsibilities 3 = Except.error e →
      (extract_key_information rs js).1 = Except.error e) ∧
    (∀ (rs js : FAISS) (e : Err),
      js.searchScored q_requirements 5 = Except.error e →
      (calculate_match_scores rs js).1 = Except.error e) ∧
    (∀ (rs js : FAISS) (e : Err) (reqText : Str) (reqs1 : List Str) (req : Str)
        (reqs2 : List Str),
      (get_relevant_context js q_requirements 5).1 = Except.ok reqText →
      split_text reqText = reqs1 ++ req :: reqs2 →
      (∀ r ∈ reqs1, ∃ hl, rs.searchScored r 1 = Except.ok hl) →
      rs.searchScored req 1 = Except.error e →
      (calculate_match_scores rs js).1 = Except.error e) ∧
    (∀ (g : GroqCoverLetterGenerator) (rs js : FAISS) (hr_email : Str) (e : Err),
      (extract_key_information rs js).1 = Except.error e →
      (generate_cover_letter g rs js hr_email).1 = none) := by
  refine ⟨?_, ?_, ?_, ?_, ?_, ?_, ?_, ?_, ?_⟩
  · intro rs js e h1
    simp [extract_key_information, grc_error h1, M.bind]
  · intro rs js e l1 h1 h2
    simp [extract_key_information, grc_ok h1, grc_error h2, M.bind]
  · intro rs js e l1 l2 h1 h2 h3
    simp [extract_key_information, grc_ok h1, grc_ok h2, grc_error h3, M.bind]
  · intro rs js e l1 l2 l3 h1 h2 h3 h4
    simp [extract_key_information, grc_ok h1, grc_ok h2, grc_ok h3, grc_error h4, M.bind]
  · intro rs js e l1 l2 l3 l4 h1 h2 h3 h4 h5
    simp [extract_key_information, grc_ok h1, grc_ok h2, grc_ok h3, grc_ok h4, grc_error h5,
      M.bind]
  · intro rs js e l1 l2 l3 l4 l5 h1 h2 h3 h4 h5 h6
    simp [extract_key_information, grc_ok h1, grc_ok h2, grc_ok h3, grc_ok h4, grc_ok h5,
      grc_error h6, M.bind]
  · intro rs js e h
    simp [calculate_match_scores, grc_error h, M.bind]
  · intro rs js e reqText reqs1 req reqs2 hreq hsplit hok herr
    have hcalc : (calculate_match_scores rs js).1 =
        (scoreLoop rs (split_text reqText) []).1 := by
      simp only [calculate_match_scores, M_bind_fst, hreq]
    rw [hcalc, hsplit]
    exact scoreLoop_error rs reqs1 req reqs2 [] e hok herr
  · intro g rs js hr_email e hext
    have : (innerGenerate g rs js hr_email).1 = Except.error e := by
      simp [innerGenerate, M_bind_fst, hext]
    cases hgen : innerGenerate g rs js hr_email with
    | mk r t =>
      rw [hgen] at this
      simp at this
      subst this
      simp [generate_cover_letter, hgen]

/-- Witness for C8: a raising retrieval makes the extractor and the
scorer return the very same exception, while `generate_cover_letter`
swallows it. -/
theorem extractor_and_scorer_propagate_errors_witness :
    (extract_key_information errStore emptyHitStore).1 = Except.error "boom".data ∧
    (calculate_match_scores emptyHitStore errStore).1 = Except.error "boom".data ∧
    (generate_cover_letter genW errStore errStore []).1 = none :=
  ⟨extractor_and_scorer_propagate_errors.1 errStore emptyHitStore "boom".data rfl,
   extractor_and_scorer_propagate_errors.2.2.2.2.2.2.1 emptyHitStore errStore "boom".data rfl,
   extractor_and_scorer_propagate_errors.2.2.2.2.2.2.2.2 genW errStore errStore []
     "boom".data
     (extractor_and_scorer_propagate_errors.1 errStore errStore "boom".data rfl)⟩

/-! ### C5 -/

/-- The scoring loop agrees with the spec-side fold when every resume
search succeeds with the hits given by the pure view `single`. -/
theorem scoreLoop_ok (rs : FAISS) (single : Str → List (Doc × ℚ))
    (hs : ∀ q, rs.searchScored q 1 = Except.ok (single q)) :
    ∀ (reqs : List Str) (acc : List (Str × ℚ)),
      (scoreLoop rs reqs acc).1 =
        Except.ok (reqs.foldl (fun acc' req =>
          match single req with
          | [] => acc'
          | m :: _ => dictInsert acc' (pyStrip req) (roundTo2 ((1 - m.2) * 100))) acc) := by
  intro reqs
  induction reqs with
  | nil => intro acc; rfl
  | cons req rest ih =>
    intro acc
    simp only [scoreLoop, M.call, M.bind, hs req, List.foldl_cons]
    cases hsr : single req with
    | nil => simpa [hsr] using ih acc
    | cons m ms => simpa [hsr] using ih (dictInsert acc (pyStrip req) (roundTo2 ((1 - m.2) * 100)))

/-- C5: when the requirements retrieval succeeds and every resume search
succeeds, `calculate_match_scores` returns exactly the mapping
described by the spec: each requirement chunk keyed by its trimmed
text with score `(1 - distance) * 100` rounded to two decimals, and
requirements with no match omitted. -/
theorem calculate_match_scores_spec (rs js : FAISS) (reqText : Str)
    (single : Str → List (Doc × ℚ))
    (hreq : (get_relevant_context js q_requirements 5).1 = Except.ok reqText)
    (hs : ∀ q, rs.searchScored q 1 = Except.ok (single q)) :
    (calculate_match_scores rs js).1 =
      Except.ok (matchScoresSpec single (split_text reqText)) := by
  have h1 : (calculate_match_scores rs js).1 = (scoreLoop rs (split_text reqText) []).1 := by
    simp only [calculate_match_scores, M_bind_fst, hreq]
  rw [h1, scoreLoop_ok rs single hs (split_text reqText) []]
  rfl

/-- Witness for C5: concrete stores with one requirement and one resume
hit at distance 1/2. -/
theorem calculate_match_scores_spec_witness :
    (calculate_match_scores rsHalf jdReq).1 =
      Except.ok (matchScoresSpec (fun _ => [(Doc.mk "x".data, 1 / 2)])
        (split_text "Need Go experience".data)) :=
  calculate_match_scores_spec rsHalf jdReq "Need Go experience".data
    (fun _ => [(Doc.mk "x".data, 1 / 2)]) (by rfl) (fun _ => rfl)

/-! ### C6 -/

/-- Rounding to two decimals keeps a value of [0, 100] inside [0, 100]. -/
theorem roundTo2_bounds {x : ℚ} (h0 : 0 ≤ x) (h1 : x ≤ 100) :
    0 ≤ roundTo2 x ∧ roundTo2 x ≤ 100 := by
  have hr0 : (0 : ℤ) ≤ round (x * 100) := by
    rw [round_eq]
    refine Int.le_floor.mpr ?_
    push_cast
    linarith
  have hr1 : round (x * 100) ≤ 10000 := by
    rw [round_eq]
    have hlt : (⌊x * 100 + 1 / 2⌋ : ℤ) < 10001 := by
      refine Int.floor_lt.mpr ?_
      push_cast
      linarith
    omega
  unfold roundTo2
  constructor
  · apply div_nonneg _ (by norm_num)
    exact_mod_cast hr0
  · rw [div_le_iff₀ (by norm_num : (0 : ℚ) < 100)]
    have : ((round (x * 100) : ℤ) : ℚ) ≤ 10000 := by exact_mod_cast hr1
    linarith

/-- `dictInsert` preserves a property of all stored values. -/
theorem dictInsert_forall {β : Type} (P : β → Prop) (d : List (Str × β)) (key : Str) (v : β)
    (hd : ∀ p ∈ d, P p.2) (hv : P v) : ∀ p ∈ dictInsert d key v, P p.2 := by
  intro p hp
  unfold dictInsert at hp
  split at hp
  · obtain ⟨q, hq, rfl⟩ := List.mem_map.mp hp
    cases hqk : (q.1 == key) with
    | true => simpa [hqk] using hv
    | false => simpa [hqk] using hd q hq
  · rcases List.mem_append.mp hp with h' | h'
    · exact hd p h'
    · have : p = (key, v) := by simpa using h'
      rw [this]
      exact hv

/-- The scoring loop only ever records values in [0, 100] when the
store's distance metric is bounded in [0, 1]. -/
theorem scoreLoop_range (rs : FAISS)
    (hb : ∀ q l, rs.searchScored q 1 = Except.ok l → ∀ p ∈ l, 0 ≤ p.2 ∧ p.2 ≤ 1) :
    ∀ (reqs : List Str) (acc scores : List (Str × ℚ)),
      (∀ p ∈ acc, 0 ≤ p.2 ∧ p.2 ≤ 100) →
      (scoreLoop rs reqs acc).1 = Except.ok scores →
      ∀ p ∈ scores, 0 ≤ p.2 ∧ p.2 ≤ 100 := by
  intro reqs
  induction reqs with
  | nil =>
    intro acc scores hacc h
    simp only [scoreLoop, M.pure] at h
    cases h
    exact hacc
  | cons req rest ih =>
    intro acc scores hacc h
    cases hsr : rs.searchScored req 1 with
    | error e =>
      simp only [scoreLoop, M.call, M.bind, hsr] at h
      cases h
    | ok l =>
      cases l with
      | nil =>
        simp only [scoreLoop, M.call, M.bind, hsr] at h
        exact ih acc scores hacc h
      | cons m ms =>
        simp only [scoreLoop, M.call, M.bind, hsr] at h
        have hm := hb req (m :: ms) hsr m (List.mem_cons_self m ms)
        have hval : 0 ≤ roundTo2 ((1 - m.2) * 100) ∧ roundTo2 ((1 - m.2) * 100) ≤ 100 := by
          apply roundTo2_bounds
          · nlinarith [hm.1, hm.2]
          · nlinarith [hm.1, hm.2]
        exact ih _ scores
          (dictInsert_forall (fun v => 0 ≤ v ∧ v ≤ 100) acc (pyStrip req) _ hacc hval) h

/-- C6: with a distance metric bounded in [0, 1], every score emitted by
`calculate_match_scores` lies in [0, 100]; without that bound the
formula `(1 - distance) * 100` is unclamped, and a store returning a
raw distance of 2 yields a score of -100. -/
theorem match_scores_range :
    (∀ (rs js : FAISS) (scores : List (Str × ℚ)),
      (∀ q l, rs.searchScored q 1 = Except.ok l → ∀ p ∈ l, 0 ≤ p.2 ∧ p.2 ≤ 1) →
      (calculate_match_scores rs js).1 = Except.ok scores →
      ∀ p ∈ scores, 0 ≤ p.2 ∧ p.2 ≤ 100) ∧
    (∃ scores, (calculate_match_scores rsOutOfRange jdReq).1 = Except.ok scores ∧
      ∃ p ∈ scores, ¬(0 ≤ p.2 ∧ p.2 ≤ 100)) := by
  constructor
  · intro rs js scores hb hc
    simp only [calculate_match_scores, M_bind_fst] at hc
    cases hg : (get_relevant_context js q_requirements 5).1 with
    | error e =>
      rw [hg] at hc
      cases hc
    | ok reqText =>
      rw [hg] at hc
      exact scoreLoop_range rs hb (split_text reqText) [] scores (by simp) hc
  · refine ⟨[("Need Go experience".data, roundTo2 ((1 - (2 : ℚ)) * 100))], by rfl,
      ("Need Go experience".data, roundTo2 ((1 - (2 : ℚ)) * 100)), by simp,
      by norm_num [roundTo2, round_eq]⟩

/-! ### C10 -/

theorem isSimSearch_not_writes {c : Call} (h : c.isSimSearch = true) : c.writesFS = false := by
  cases c <;> simp [Call.isSimSearch, Call.writesFS] at *

theorem mem_grc_trace {st : FAISS} {q : Str} {k : Nat} {c : Call}
    (h : c ∈ (get_relevant_context st q k).2) : c = Call.search q k := by
  rw [grc_trace] at h
  simpa using h

/-- Every call made by the scoring loop is a similarity search. -/
theorem scoreLoop_trace (rs : FAISS) :
    ∀ (reqs : List Str) (acc : List (Str × ℚ)) (c : Call),
      c ∈ (scoreLoop rs reqs acc).2 → c.isSimSearch = true := by
  intro reqs
  induction reqs with
  | nil =>
    intro acc c hc
    simp [scoreLoop, M.pure] at hc
  | cons req rest ih =>
    intro acc c hc
    rcases M_mem_bind_trace hc with h' | ⟨hits, _, h'⟩
    · have hcc : c = Call.searchScore req 1 := by simpa [M.call] using h'
      rw [hcc]
      rfl
    · cases hits with
      | nil => exact ih acc c h'
      | cons m ms => exact ih _ c h'

/-- Every call made by the extractor is a similarity search. -/
theorem extract_trace (rs js : FAISS) :
    ∀ c ∈ (extract_key_information rs js).2, c.isSimSearch = true := by
  intro c hc
  rcases M_mem_bind_trace hc with h' | ⟨v1, _, h'⟩
  · rw [mem_grc_trace h']; rfl
  rcases M_mem_bind_trace h' with h'' | ⟨v2, _, h''⟩
  · rw [mem_grc_trace h'']; rfl
  rcases M_mem_bind_trace h'' with h3 | ⟨v3, _, h3⟩
  · rw [mem_grc_trace h3]; rfl
  rcases M_mem_bind_trace h3 with h4 | ⟨v4, _, h4⟩
  · rw [mem_grc_trace h4]; rfl
  rcases M_mem_bind_trace h4 with h5 | ⟨v5, _, h5⟩
  · rw [mem_grc_trace h5]; rfl
  rcases M_mem_bind_trace h5 with h6 | ⟨v6, _, h6⟩
  · rw [mem_grc_trace h6]; rfl
  simp [M.pure] at h6

/-- Every call made by the scorer is a similarity search. -/
theorem calculate_trace (rs js : FAISS) :
    ∀ c ∈ (calculate_match_scores rs js).2, c.isSimSearch = true := by
  intro c hc
  rcases M_mem_bind_trace hc with h' | ⟨reqText, _, h'⟩
  · rw [mem_grc_trace h']; rfl
  · exact scoreLoop_trace rs _ [] c h'

/-- The letter composer never writes to the storage directory. -/
theorem generate_trace (g : GroqCoverLetterGenerator) (rs js : FAISS) (hr : Str) :
    ∀ c ∈ (generate_cover_letter g rs js hr).2, c.writesFS = false := by
  intro c hc
  have h2 : (generate_cover_letter g rs js hr).2 = (innerGenerate g rs js hr).2 := by
    cases hg : innerGenerate g rs js hr with
    | mk r t => cases r <;> simp [generate_cover_letter, hg]
  rw [h2] at hc
  rcases M_mem_bind_trace hc with h' | ⟨info, _, h'⟩
  · exact isSimSearch_not_writes (extract_trace rs js c h')
  rcases M_mem_bind_trace h' with h'' | ⟨completion, _, h''⟩
  · have hcc : c = Call.chatCreate := by simpa [M.call] using h''
    rw [hcc]
    rfl
  · obtain ⟨choices⟩ := completion
    cases choices <;> simp [M.pure] at h''

/-- The only writes of `load_or_create_vector_store` are the directory
creation at the storage root and the save at the store path. -/
theorem load_or_create_writes (g : GroqCoverLetterGenerator) (env : Env)
    (text store_name : Str) :
    ∀ c ∈ (load_or_create_vector_store g env text store_name).2, c.writesFS = true →
      (c = Call.makedirs g.vector_store_path ∨
       c = Call.saveLocal (pathJoin g.vector_store_path store_name)) := by
  intro c hc hw
  simp only [load_or_create_vector_store, createNewStore] at hc
  by_cases he : env.pathExists (pathJoin g.vector_store_path store_name) = true
  · rw [if_pos he] at hc
    cases hl : env.loadLocal (pathJoin g.vector_store_path store_name) with
    | ok vs =>
      rw [hl] at hc
      simp only [List.mem_cons, List.mem_singleton] at hc
      rcases hc with rfl | rfl | hc
      · cases hw
      · cases hw
      · cases hc
    | error e =>
      rw [hl] at hc
      simp only [List.mem_cons, List.mem_singleton] at hc
      rcases hc with rfl | rfl | rfl | rfl | rfl | hc
      · cases hw
      · cases hw
      · cases hw
      · exact Or.inl rfl
      · exact Or.inr rfl
      · cases hc
  · rw [if_neg he] at hc
    simp only [List.mem_cons, List.mem_singleton] at hc
    rcases hc with rfl | rfl | rfl | rfl | hc
    · cases hw
    · cases hw
    · exact Or.inl rfl
    · exact Or.inr rfl
    · cases hc

/-- C10: the three query-side operations perform only similarity
searches — no filesystem writes, loads, or index rebuilds; the letter
composer also never writes; and `load_or_create_vector_store` is the
only operation that writes, touching exactly the storage root
directory and the store path. -/
theorem query_operations_read_only :
    (∀ (st : FAISS) (q : Str) (k : Nat), ∀ c ∈ (get_relevant_context st q k).2,
      c.isSimSearch = true) ∧
    (∀ rs js : FAISS, ∀ c ∈ (extract_key_information rs js).2, c.isSimSearch = true) ∧
    (∀ rs js : FAISS, ∀ c ∈ (calculate_match_scores rs js).2, c.isSimSearch = true) ∧
    (∀ (g : GroqCoverLetterGenerator) (rs js : FAISS) (hr : Str),
      ∀ c ∈ (generate_cover_letter g rs js hr).2, c.writesFS = false) ∧
    (∀ (g : GroqCoverLetterGenerator) (env : Env) (text store_name : Str),
      ∀ c ∈ (load_or_create_vector_store g env text store_name).2, c.writesFS = true →
        (c = Call.makedirs g.vector_store_path ∨
         c = Call.saveLocal (pathJoin g.vector_store_path store_name))) :=
  ⟨fun st q k c hc => by rw [mem_grc_trace hc]; rfl,
   extract_trace, calculate_trace, generate_trace, load_or_create_writes⟩

/-- Witness for C10: a concrete query trace is a similarity search, and
a concrete write of the builder is the storage-root `makedirs`. -/
theorem query_operations_read_only_witness :
    Call.isSimSearch (Call.search "q".data 3) = true ∧
    (Call.makedirs "vector_indices".data = Call.makedirs genW.vector_store_path ∨
     Call.makedirs "vector_indices".data =
       Call.saveLocal (pathJoin genW.vector_store_path "r".data)) :=
  ⟨query_operations_read_only.1 emptyHitStore "q".data 3 (Call.search "q".data 3) (by decide),
   query_operations_read_only.2.2.2.2 genW envFresh "a".data "r".data
     (Call.makedirs "vector_indices".data) (by decide) (by decide)⟩

/-- Witness for C6: a bounded-metric store produces an in-range score
(here `roundTo2 ((1 - 1/2) * 100) = 50`). -/
theorem match_scores_range_witness :
    ∀ p ∈ [("Need Go experience".data, roundTo2 ((1 - (1 / 2 : ℚ)) * 100))],
      0 ≤ p.2 ∧ p.2 ≤ 100 :=
  match_scores_range.1 rsHalf jdReq
    [("Need Go experience".data, roundTo2 ((1 - (1 / 2 : ℚ)) * 100))]
    (by
      intro q l h p hp
      cases h
      simp only [List.mem_singleton] at hp
      subst hp
      constructor <;> norm_num)
    (by rfl)


